import Mathlib

/- Verification of the openfootball season parser and Elo rating engine.

   The definitions below are a shallow embedding of `src/lib.rs`:
   * `Season::from_path` (minus file I/O) becomes `parseLines`, a fold of
     `parseStep` over the list of input lines; the four regexes of the
     source are embedded as recognizer functions over `List Char` that
     reproduce the leftmost-first match semantics of the regex crate for
     those exact patterns.
   * `Season::standings`, `Season::odds`, `Game::update_stats`,
     `Odds::new` and `expected_score` are embedded over `ℝ` (the f64
     computations of the source are modelled as exact real arithmetic;
     every concrete value appearing in a theorem below is exactly
     representable in f64, where the two semantics coincide), with the
     `HashMap<String, Stats>` modelled as `String → Option Stats`.  -/

namespace Openfootball

/-! ### Characters, digit runs, trimming -/

/-- ASCII whitespace, the fragment of Unicode whitespace (used by both
`str::trim` and the regex class matched in the source patterns) that can
occur in the inputs considered here. -/
def isWs (c : Char) : Bool :=
  c == ' ' || c == '\t' || c == '\n' || c == '\r' || c == '\x0b' || c == '\x0c'

/-- The digit class of the source regexes, restricted to ASCII `0`-`9`. -/
def isDigitChar (c : Char) : Bool := c.isDigit

/-- The `[[:alpha:]]` POSIX class of the date regex (ASCII letters). -/
def isAlphaChar (c : Char) : Bool := c.isAlpha

/-- `str::trim`: drop whitespace from both ends. -/
def trimChars (cs : List Char) : List Char :=
  ((cs.dropWhile isWs).reverse.dropWhile isWs).reverse

/-- Numeric value of a digit run, as `str::parse` computes it. -/
def natOfDigits (ds : List Char) : Nat :=
  ds.foldl (fun n c => 10 * n + (c.toNat - 48)) 0

/-! ### Dates (chrono `NaiveDate`, proleptic Gregorian) -/

structure Date where
  year : Int
  month : Nat
  day : Nat
deriving DecidableEq, Repr

def isLeapYear (y : Int) : Bool :=
  y % 4 == 0 && (y % 100 != 0 || y % 400 == 0)

def daysInMonth (y : Int) (m : Nat) : Nat :=
  if m == 2 then (if isLeapYear y then 29 else 28)
  else if m == 4 || m == 6 || m == 9 || m == 11 then 30
  else if 1 ≤ m && m ≤ 12 then 31
  else 0

/-- chrono `%b`: three-letter month abbreviation, compared
case-insensitively. -/
def monthFromAbbrev (cs : List Char) : Option Nat :=
  let l := cs.map Char.toLower
  if l == ['j', 'a', 'n'] then some 1
  else if l == ['f', 'e', 'b'] then some 2
  else if l == ['m', 'a', 'r'] then some 3
  else if l == ['a', 'p', 'r'] then some 4
  else if l == ['m', 'a', 'y'] then some 5
  else if l == ['j', 'u', 'n'] then some 6
  else if l == ['j', 'u', 'l'] then some 7
  else if l == ['a', 'u', 'g'] then some 8
  else if l == ['s', 'e', 'p'] then some 9
  else if l == ['o', 'c', 't'] then some 10
  else if l == ['n', 'o', 'v'] then some 11
  else if l == ['d', 'e', 'c'] then some 12
  else none

/-! ### The four line regexes of `Season::from_path` -/

/-- Header regex `# (.+) (\d{4})/\d{2}$`: the trailing ` \d{4}/\d{2}` is a
fixed-width anchored tail, so the split point is forced and the greedy
name group plays no role; returns the four-digit base year. -/
def headerMatch (cs : List Char) : Option Int :=
  let n := cs.length
  if n ≥ 11 && cs.take 2 == ['#', ' '] then
    match cs.drop (n - 8) with
    | [' ', a, b, c, d, '/', e, f] =>
      if isDigitChar a && isDigitChar b && isDigitChar c && isDigitChar d
          && isDigitChar e && isDigitChar f then
        some (natOfDigits [a, b, c, d] : Int)
      else none
    | _ => none
  else none

/-- Matchday regex `Matchday (\d+)$`: returns the digit run. -/
def matchdayMatch (cs : List Char) : Option (List Char) :=
  if cs.take 9 == ("Matchday ").toList then
    let ds := cs.drop 9
    if !ds.isEmpty && ds.all isDigitChar then some ds else none
  else none

/-- Date regex `\[[[:alpha:]]{3} ([[:alpha:]]{3})/(\d+)\]$`: returns the
month letters and the day digit run. -/
def dateMatch (cs : List Char) : Option (List Char × List Char) :=
  match cs with
  | '[' :: w1 :: w2 :: w3 :: ' ' :: m1 :: m2 :: m3 :: '/' :: rest =>
    if isAlphaChar w1 && isAlphaChar w2 && isAlphaChar w3
        && isAlphaChar m1 && isAlphaChar m2 && isAlphaChar m3 then
      let p := rest.span isDigitChar
      if !p.1.isEmpty && p.2 == [']'] then some ([m1, m2, m3], p.1) else none
    else none
  | _ => none

/-- Captures of the fixture regex
`(.+?)\s+(\d+)?-(\d+)?\s+(.+?)(\s*postponed)?$`. -/
structure GameCaps where
  home : List Char
  homeScore : Option (List Char)
  awayScore : Option (List Char)
  away : List Char
deriving DecidableEq, Repr

/-- After the lazy away-team group `(.+?)`, the remainder `u` must be
matched by `(\s*postponed)?$`: either empty, or a whitespace run followed
by the literal `postponed`. -/
def tailOk (u : List Char) : Bool :=
  u.isEmpty ||
    (let p := u.span isWs
     p.2 == ("postponed").toList)

/-- The lazy `(.+?)` away group: the shortest nonempty front segment
whose remainder satisfies `tailOk`. -/
def findAway (acc : List Char) : List Char → Option (List Char)
  | [] => none
  | c :: rest =>
    let acc' := acc ++ [c]
    if tailOk rest then some acc' else findAway acc' rest

/-- The greedy `\s+` before the away team: try consuming `flen` characters
of the maximal whitespace run `ws2` (longest first, as a greedy group
backtracks), the rest being handed to the lazy away group. -/
def tryAwayWs (ws2 t : List Char) : Nat → Option (List Char)
  | 0 => none
  | flen + 1 =>
    match findAway [] (ws2.drop (flen + 1) ++ t) with
    | some a => some a
    | none => tryAwayWs ws2 t flen

/-- Matching after the literal `-`: the optional away-score group must be
the entire following digit run (a shorter take leaves a digit where `\s+`
must match), then the away whitespace and away team. -/
def afterDash (home : List Char) (hs : Option (List Char)) (r : List Char) :
    Option GameCaps :=
  let p := r.span isDigitChar
  let asc := if p.1.isEmpty then none else some p.1
  let q := p.2.span isWs
  if q.1.isEmpty then none
  else
    match tryAwayWs q.1 q.2 q.1.length with
    | some aw => some ⟨home, hs, asc, aw⟩
    | none => none

/-- Matching after a candidate home team: the greedy `\s+` is forced to be
the maximal whitespace run (a shorter take leaves whitespace where the
optional digits or the `-` must match) and the optional home-score group
is forced to be the entire following digit run. -/
def afterHome (home : List Char) (r : List Char) : Option GameCaps :=
  let p := r.span isWs
  if p.1.isEmpty then none
  else
    let q := p.2.span isDigitChar
    match q.2 with
    | '-' :: r3 => afterDash home (if q.1.isEmpty then none else some q.1) r3
    | _ => none

/-- The lazy `(.+?)` home group: candidate home teams in increasing
length, first overall success wins (leftmost-first semantics). -/
def tryHome (acc : List Char) : List Char → Option GameCaps
  | [] => none
  | c :: rest =>
    let acc' := acc ++ [c]
    match afterHome acc' rest with
    | some g => some g
    | none => tryHome acc' rest

/-- Fixture regex `(.+?)\s+(\d+)?-(\d+)?\s+(.+?)(\s*postponed)?$`. -/
def gameMatch (cs : List Char) : Option GameCaps := tryHome [] cs

/-! ### Line classification (the if/else chain of `Season::from_path`) -/

inductive LineClass where
  | ignored
  | header (year : Int)
  | matchday (ds : List Char)
  | date (month : List Char) (day : List Char)
  | game (caps : GameCaps)
  | invalid (line : List Char)
deriving DecidableEq, Repr

/-- The classification chain of `Season::from_path`, applied to a trimmed
line: skip blank or all-`#` lines, then try the four regexes in order,
anything else is invalid. -/
def classifyLine (cs : List Char) : LineClass :=
  if cs.isEmpty || cs.all (fun c => c == '#') then .ignored
  else
    match headerMatch cs with
    | some y => .header y
    | none =>
      match matchdayMatch cs with
      | some ds => .matchday ds
      | none =>
        match dateMatch cs with
        | some md => .date md.1 md.2
        | none =>
          match gameMatch cs with
          | some c => .game c
          | none => .invalid cs

/-! ### Errors, games, seasons -/

inductive Err where
  | invalidSeasonLine (line : String)
  | missingTeam (team : String)
  | intParseError
  | dateParseError
  | withYearPanic
deriving DecidableEq, Repr

instance {ε α : Type} [DecidableEq ε] [DecidableEq α] : DecidableEq (Except ε α) :=
  fun x y =>
    match x, y with
    | .error a, .error b =>
      if h : a = b then .isTrue (by rw [h])
      else .isFalse (fun hc => h (by cases hc; rfl))
    | .error _, .ok _ => .isFalse (fun hc => Except.noConfusion hc)
    | .ok _, .error _ => .isFalse (fun hc => Except.noConfusion hc)
    | .ok a, .ok b =>
      if h : a = b then .isTrue (by rw [h])
      else .isFalse (fun hc => h (by cases hc; rfl))

structure Game where
  date : Date
  matchweek : Nat
  home : String
  away : String
  scores : Option (Nat × Nat)
deriving DecidableEq, Repr

structure Season where
  games : List Game
deriving DecidableEq, Repr

/-! ### The season assembler -/

structure PState where
  year : Int
  matchweek : Nat
  date : Date
  games : List Game
deriving DecidableEq, Repr

/-- `str::parse::<u16>` on a digit run: fails above `u16::MAX`. -/
def u16OfDigits (ds : List Char) : Except Err Nat :=
  let n := natOfDigits ds
  if n > 65535 then .error .intParseError else .ok n

/-- The date-marker arm: chrono `parse_from_str` with format
`%Y %b %d` on `"{year} {month} {day}"`, followed by the
`if date.month() < 7 { date.with_year(year + 1).unwrap() }` adjustment.
`%d` consumes at most two digits and the day must be valid for the
month; `with_year` fails (the source unwraps, hence panics) only when
Feb 29 lands in a non-leap year. -/
def resolveDate (year : Int) (m d : List Char) : Except Err Date :=
  match monthFromAbbrev m with
  | none => .error .dateParseError
  | some mo =>
    if d.length > 2 then .error .dateParseError
    else if natOfDigits d < 1 || natOfDigits d > daysInMonth year mo then
      .error .dateParseError
    else if mo < 7 then
      if mo == 2 && natOfDigits d == 29 && !isLeapYear (year + 1) then
        .error .withYearPanic
      else .ok ⟨year + 1, mo, natOfDigits d⟩
    else .ok ⟨year, mo, natOfDigits d⟩

/-- One iteration of the line loop of `Season::from_path`: the game
branch builds `Game::new` from the current context and, when both score
captures are present, parses both as u16 and sets the score. -/
def parseStep (st : PState) (line : String) : Except Err PState :=
  match classifyLine (trimChars line.toList) with
  | .ignored => .ok st
  | .header y => .ok { st with year := y }
  | .matchday ds =>
    match u16OfDigits ds with
    | .error e => .error e
    | .ok n => .ok { st with matchweek := n }
  | .date m d =>
    match resolveDate st.year m d with
    | .error e => .error e
    | .ok dt => .ok { st with date := dt }
  | .game caps =>
    match caps.homeScore, caps.awayScore with
    | some hd, some ad =>
      match u16OfDigits hd with
      | .error e => .error e
      | .ok hsc =>
        match u16OfDigits ad with
        | .error e => .error e
        | .ok asc =>
          .ok { st with games := st.games ++
            [{ date := st.date, matchweek := st.matchweek,
               home := String.mk caps.home, away := String.mk caps.away,
               scores := some (hsc, asc) }] }
    | _, _ =>
      .ok { st with games := st.games ++
        [{ date := st.date, matchweek := st.matchweek,
           home := String.mk caps.home, away := String.mk caps.away,
           scores := none }] }
  | .invalid l => .error (.invalidSeasonLine (String.mk l))

/-- The parse context before any line is read: year 0, matchday 0, and
the `Utc::today()` placeholder date supplied by the caller. -/
def initPState (today : Date) : PState :=
  { year := 0, matchweek := 0, date := today, games := [] }

/-- `Season::from_path`, minus the file I/O: fold the line loop and wrap
the accumulated fixtures into a `Season`. -/
def parseLines (today : Date) (lines : List String) : Except Err Season :=
  (lines.foldlM parseStep (initPState today)).map fun st => ⟨st.games⟩

/-- Fixed placeholder used for concrete inputs whose behaviour does not
depend on the initial `Utc::today()` date. -/
def today0 : Date := ⟨2020, 1, 1⟩

/-- Whether a raw line classifies as a round marker. -/
def isMatchdayLine (line : String) : Bool :=
  match classifyLine (trimChars line.toList) with
  | .matchday _ => true
  | _ => false

/-- Whether a raw line classifies as a header. -/
def isHeaderLine (line : String) : Bool :=
  match classifyLine (trimChars line.toList) with
  | .header _ => true
  | _ => false

/-! ### The rating engine -/

structure Stats where
  wins : Nat
  draws : Nat
  losses : Nat
  goals_for : Nat
  goals_against : Nat
  elo_rating : Int
deriving DecidableEq, Repr

def Stats.new (initial_elo_rating : Int) : Stats :=
  ⟨0, 0, 0, 0, 0, initial_elo_rating⟩

structure Standing where
  team : String
  date : Date
  matchweek : Nat
  wins : Nat
  draws : Nat
  losses : Nat
  goals_for : Nat
  goals_against : Nat
  elo_rating : Int
deriving DecidableEq, Repr

structure Odds where
  home : String
  home_expected_score : ℝ
  away : String
  away_expected_score : ℝ

/-- The `HashMap<String, Stats>` of the replay, as a partial map. -/
def StatsMap := String → Option Stats

/-- `f64::round` (nearest, ties away from zero), fed by `as i32` into the
integer rating. -/
noncomputable def roundAfz (x : ℝ) : Int :=
  if 0 ≤ x then ⌊x + 1 / 2⌋ else -⌊-x + 1 / 2⌋

/-- `expected_score`: the logistic pairing
`1 / (1 + 10^((away - home) / 400))` and its complement. -/
noncomputable def expected_score (home away : ℝ) : ℝ × ℝ :=
  let h := 1 / (1 + (10 : ℝ) ^ ((away - home) / 400))
  (h, 1 - h)

/-- The actual-outcome value used by the rating delta: 1 for a win, 0 for
a loss, 1/2 for a draw (as a function of goals for and against). -/
noncomputable def actualScore (gf ga : Nat) : ℝ :=
  if gf > ga then 1 else if gf < ga then 0 else 1 / 2

/-- The body of the `update` closure in `Game::update_stats`: add the
goals, bump the win/draw/loss counter while determining the actual score,
then add the rounded rating delta. -/
noncomputable def bumpStats (k expected : ℝ) (st : Stats) (gf ga : Nat) : Stats :=
  let st1 : Stats :=
    { st with goals_for := st.goals_for + gf, goals_against := st.goals_against + ga }
  let p : Stats × ℝ :=
    if gf > ga then ({ st1 with wins := st1.wins + 1 }, 1)
    else if gf < ga then ({ st1 with losses := st1.losses + 1 }, 0)
    else ({ st1 with draws := st1.draws + 1 }, 1 / 2)
  { p.1 with elo_rating := p.1.elo_rating + roundAfz (k * (p.2 - expected)) }

/-- The `update` closure: look the team up in the current map, apply
`bumpStats`, store the new stats back and emit the Standing snapshot. -/
noncomputable def updateTeam (g : Game) (k : ℝ) (team : String) (gf ga : Nat)
    (expected : ℝ) (m : StatsMap) : Except Err (Standing × StatsMap) :=
  match m team with
  | none => .error (.missingTeam team)
  | some st =>
    let st3 := bumpStats k expected st gf ga
    .ok (⟨team, g.date, g.matchweek, st3.wins, st3.draws, st3.losses,
          st3.goals_for, st3.goals_against, st3.elo_rating⟩,
         fun t => if t = team then some st3 else m t)

/-- `Game::update_stats`: skip unplayed games; otherwise read both
pre-game ratings, compute the expected-score pair from them, then update
the home side and afterwards the away side. -/
noncomputable def Game.update_stats (g : Game) (m : StatsMap) (k : ℝ) :
    Except Err (Option ((Standing × Standing) × StatsMap)) :=
  match g.scores with
  | none => .ok none
  | some sc =>
    match m g.home with
    | none => .error (.missingTeam g.home)
    | some hst =>
      match m g.away with
      | none => .error (.missingTeam g.away)
      | some ast =>
        let p := expected_score (hst.elo_rating : ℝ) (ast.elo_rating : ℝ)
        match updateTeam g k g.home sc.1 sc.2 p.1 m with
        | .error e => .error e
        | .ok hm =>
          match updateTeam g k g.away sc.2 sc.1 p.2 hm.2 with
          | .error e => .error e
          | .ok am => .ok (some ((hm.1, am.1), am.2))

/-- Every team name appearing as home or away in some fixture. -/
def Season.teams (s : Season) : List String :=
  s.games.flatMap fun g => [g.home, g.away]

/-- `Season::stats`: one fresh accumulator per distinct team name of the
season (the HashSet scan and collect of the source). -/
def Season.stats (s : Season) (initial_elo_rating : Int) : StatsMap :=
  fun t => if t ∈ s.teams then some (Stats.new initial_elo_rating) else none

/-- The loop of `Season::standings`: thread the map, pushing the home
then the away Standing of each played game. -/
noncomputable def processGames (k : ℝ) :
    List Game → List Standing → StatsMap → Except Err (List Standing × StatsMap)
  | [], acc, m => .ok (acc, m)
  | g :: gs, acc, m =>
    match g.update_stats m k with
    | .error e => .error e
    | .ok none => processGames k gs acc m
    | .ok (some (p, m')) => processGames k gs (acc ++ [p.1, p.2]) m'

/-- `Season::standings`. -/
noncomputable def Season.standings (s : Season) (initial_elo_rating : Int) (k : ℝ) :
    Except Err (List Standing) :=
  (processGames k s.games [] (s.stats initial_elo_rating)).map Prod.fst

/-- The replay shape the Standing invariant describes, relating a fixture
list, the accumulator map it starts from, and the emitted snapshot list:
fixtures are processed in order; an unplayed fixture emits nothing and
leaves the accumulators unchanged; a played fixture emits its
home-then-away Standing pair, tagged with the fixture's date and round,
each copying that team's value in the post-fixture accumulator map `mA`
(the home side's under the proviso that the two team names differ — on a
degenerate self-paired fixture the source takes the home snapshot before
the away mutation); the rest of the replay continues from `mA`.  The
`update_stats` equation designates which map is the post-fixture one; the
copy equations are the content — a replay emitting pre-update values
would fail them, since the post-fixture map holds the incremented
counters and the new rating. -/
inductive SnapshotCopies (k : ℝ) : List Game → StatsMap → List Standing → Prop where
  | nil (m : StatsMap) : SnapshotCopies k [] m []
  | unplayed (g : Game) (gs : List Game) (m : StatsMap) (l : List Standing) :
      g.scores = none → SnapshotCopies k gs m l →
      SnapshotCopies k (g :: gs) m l
  | played (g : Game) (gs : List Game) (m : StatsMap) (sh sa : Standing)
      (mA : StatsMap) (l : List Standing) :
      g.update_stats m k = .ok (some ((sh, sa), mA)) →
      sh.team = g.home → sa.team = g.away →
      sh.date = g.date → sh.matchweek = g.matchweek →
      sa.date = g.date → sa.matchweek = g.matchweek →
      mA sa.team = some ⟨sa.wins, sa.draws, sa.losses, sa.goals_for,
        sa.goals_against, sa.elo_rating⟩ →
      (g.home ≠ g.away → mA sh.team = some ⟨sh.wins, sh.draws, sh.losses,
        sh.goals_for, sh.goals_against, sh.elo_rating⟩) →
      SnapshotCopies k gs mA l →
      SnapshotCopies k (g :: gs) m (sh :: sa :: l)

/-- The replay loop of `Season::odds`: run `update_stats` over the games,
keeping only the map. -/
noncomputable def replayStats (k : ℝ) : List Game → StatsMap → Except Err StatsMap
  | [], m => .ok m
  | g :: gs, m =>
    match g.update_stats m k with
    | .error e => .error e
    | .ok none => replayStats k gs m
    | .ok (some (_, m')) => replayStats k gs m'

/-- `Odds::new`: the expected-score pair of one game from frozen
ratings. -/
noncomputable def Odds.new (g : Game) (m : StatsMap) : Except Err Odds :=
  match m g.home with
  | none => .error (.missingTeam g.home)
  | some hst =>
    match m g.away with
    | none => .error (.missingTeam g.away)
    | some ast =>
      let p := expected_score (hst.elo_rating : ℝ) (ast.elo_rating : ℝ)
      .ok ⟨g.home, p.1, g.away, p.2⟩

/-- `Season::odds`: replay the games of earlier matchweeks mutating the
accumulators, then collect one Odds record per game of the requested
matchweek, in season order. -/
noncomputable def Season.odds (s : Season) (initial_elo_rating : Int) (k : ℝ)
    (matchweek : Nat) : Except Err (List Odds) :=
  match replayStats k (s.games.filter fun g => g.matchweek < matchweek)
      (s.stats initial_elo_rating) with
  | .error e => .error e
  | .ok m => (s.games.filter fun g => g.matchweek == matchweek).mapM fun g => Odds.new g m

/-- The odds algorithm as 4.4 of the design describes it: run the rating
engine replay of 4.3 restricted to fixtures of strictly earlier rounds,
discard the Standing outputs and keep the final accumulators, then emit
one Odds per fixture of the target round from those frozen ratings. -/
noncomputable def oddsViaRatingEngine (s : Season) (initial_elo_rating : Int) (k : ℝ)
    (matchweek : Nat) : Except Err (List Odds) :=
  match processGames k (s.games.filter fun g => g.matchweek < matchweek) []
      (s.stats initial_elo_rating) with
  | .error e => .error e
  | .ok r => (s.games.filter fun g => g.matchweek == matchweek).mapM fun g => Odds.new g r.2

/-! ### Concrete inputs used by witnesses and counterexamples -/

def wDate : Date := ⟨2018, 8, 11⟩

/-- A between-equals fixture won 1-0 by the home side. -/
def wGame : Game := ⟨wDate, 1, "A", "B", some (1, 0)⟩

/-- The same fixture lost 0-1 by the home side. -/
def wGameLoss : Game := ⟨wDate, 1, "A", "B", some (0, 1)⟩

/-- An unplayed fixture of matchweek 2. -/
def wGameUnplayed : Game := ⟨wDate, 2, "A", "B", none⟩

def wSeason : Season := ⟨[wGame]⟩

def wSeason2 : Season := ⟨[wGame, wGameUnplayed]⟩

/-! ### Helper lemmas -/

theorem roundAfz_intCast (n : Int) : roundAfz (n : ℝ) = n := by
  unfold roundAfz
  by_cases h : (0 : ℝ) ≤ (n : ℝ)
  · rw [if_pos h]
    rw [show ((n : ℝ) + 1 / 2) = ((1 : ℝ) / 2 + n) by ring, Int.floor_add_int]
    norm_num
  · rw [if_neg h]
    have h2 : (-(n : ℝ) + 1 / 2) = (1 : ℝ) / 2 + ((-n : ℤ) : ℝ) := by
      push_cast
      ring
    rw [h2, Int.floor_add_int]
    norm_num

theorem expected_score_sum (h a : ℝ) :
    (expected_score h a).1 + (expected_score h a).2 = 1 := by
  unfold expected_score
  ring

theorem expected_score_self (r : ℝ) : expected_score r r = (1 / 2, 1 / 2) := by
  unfold expected_score
  rw [sub_self, zero_div, Real.rpow_zero]
  norm_num

theorem bumpStats_elo (k e : ℝ) (st : Stats) (gf ga : Nat) :
    (bumpStats k e st gf ga).elo_rating =
      st.elo_rating + roundAfz (k * (actualScore gf ga - e)) := by
  unfold bumpStats actualScore
  by_cases h1 : gf > ga
  · simp [h1]
  · by_cases h2 : gf < ga
    · simp [h1, h2]
    · simp [h1, h2]

theorem bumpStats_counters (k e : ℝ) (st : Stats) (gf ga : Nat) :
    (bumpStats k e st gf ga).goals_for = st.goals_for + gf ∧
      (bumpStats k e st gf ga).goals_against = st.goals_against + ga ∧
      (bumpStats k e st gf ga).wins + (bumpStats k e st gf ga).draws +
          (bumpStats k e st gf ga).losses =
        st.wins + st.draws + st.losses + 1 := by
  unfold bumpStats
  by_cases h1 : gf > ga
  · simp [h1]; omega
  · by_cases h2 : gf < ga
    · simp [h1, h2]; omega
    · simp [h1, h2]; omega

theorem update_stats_unplayed (g : Game) (m : StatsMap) (k : ℝ)
    (h : g.scores = none) : g.update_stats m k = .ok none := by
  unfold Game.update_stats
  rw [h]

/-- Closed-form description of `Game::update_stats` on a played fixture
between two distinct registered teams: both expected scores come from the
pre-game rating pair, and each side's new rating adds the rounded delta
to its own pre-game rating. -/
theorem update_stats_played (g : Game) (m : StatsMap) (k : ℝ) (hsc asc : Nat)
    (hst ast : Stats) (hs : g.scores = some (hsc, asc)) (hne : g.home ≠ g.away)
    (hh : m g.home = some hst) (ha : m g.away = some ast) :
    ∃ sh sa m', g.update_stats m k = .ok (some ((sh, sa), m')) ∧
      sh.team = g.home ∧ sa.team = g.away ∧
      sh.elo_rating = hst.elo_rating +
        roundAfz (k * (actualScore hsc asc -
          (expected_score (hst.elo_rating : ℝ) (ast.elo_rating : ℝ)).1)) ∧
      sa.elo_rating = ast.elo_rating +
        roundAfz (k * (actualScore asc hsc -
          (expected_score (hst.elo_rating : ℝ) (ast.elo_rating : ℝ)).2)) ∧
      m' g.home = some ⟨sh.wins, sh.draws, sh.losses, sh.goals_for,
        sh.goals_against, sh.elo_rating⟩ ∧
      m' g.away = some ⟨sa.wins, sa.draws, sa.losses, sa.goals_for,
        sa.goals_against, sa.elo_rating⟩ := by
  have hne' : g.away ≠ g.home := Ne.symm hne
  unfold Game.update_stats updateTeam
  rw [hs]
  simp only [hh, ha, if_neg hne', if_pos rfl]
  refine ⟨_, _, _, rfl, rfl, rfl, ?_, ?_, ?_, ?_⟩
  · exact bumpStats_elo ..
  · exact bumpStats_elo ..
  · simp [hne]
  · simp

/-- On any game whose two teams are registered, `update_stats` succeeds:
with `none` for an unplayed game, and otherwise with a home/away pair of
snapshots tagged with the game's date and matchday, each copying its
team's value in the returned (post-fixture) map — the home side's under
distinctness of the team names — and a map of unchanged domain. -/
theorem update_stats_ok (g : Game) (m : StatsMap) (k : ℝ)
    (hh : (m g.home).isSome = true) (ha : (m g.away).isSome = true) :
    (g.scores = none ∧ g.update_stats m k = .ok none) ∨
    (g.scores.isSome = true ∧ ∃ sh sa m',
      g.update_stats m k = .ok (some ((sh, sa), m')) ∧
      sh.team = g.home ∧ sa.team = g.away ∧
      sh.date = g.date ∧ sh.matchweek = g.matchweek ∧
      sa.date = g.date ∧ sa.matchweek = g.matchweek ∧
      m' sa.team = some ⟨sa.wins, sa.draws, sa.losses, sa.goals_for,
        sa.goals_against, sa.elo_rating⟩ ∧
      (g.home ≠ g.away → m' sh.team = some ⟨sh.wins, sh.draws, sh.losses,
        sh.goals_for, sh.goals_against, sh.elo_rating⟩) ∧
      (∀ t, (m' t).isSome = (m t).isSome)) := by
  rcases hsc : g.scores with _ | sc
  · exact .inl ⟨rfl, update_stats_unplayed g m k hsc⟩
  · right
    obtain ⟨hst, hh'⟩ := Option.isSome_iff_exists.mp hh
    obtain ⟨ast, ha'⟩ := Option.isSome_iff_exists.mp ha
    refine ⟨by simp, ?_⟩
    unfold Game.update_stats updateTeam
    rw [hsc]
    simp only [hh', ha']
    by_cases he : g.away = g.home
    · simp only [if_pos he]
      refine ⟨_, _, _, rfl, rfl, rfl, rfl, rfl, rfl, rfl, by simp,
        fun hne => absurd he.symm hne, fun t => ?_⟩
      by_cases h1 : t = g.away
      · simp [h1, ha']
      · by_cases h2 : t = g.home
        · simp [h1, h2, hh']
          split <;> rfl
        · simp [h1, h2]
    · simp only [if_neg he]
      refine ⟨_, _, _, rfl, rfl, rfl, rfl, rfl, rfl, rfl, by simp,
        fun hne => by simp [hne], fun t => ?_⟩
      by_cases h1 : t = g.away
      · simp [h1, ha']
      · by_cases h2 : t = g.home
        · simp [h1, h2, hh']
          split <;> rfl
        · simp [h1, h2]

/-- The standings loop: it succeeds whenever every team of the remaining
games is registered, appends to the accumulator exactly one home-then-away
pair of snapshots per played game in game order, never changes the domain
of the accumulator map, and the emitted list is a post-update snapshot
replay of the games (`SnapshotCopies`). -/
theorem processGames_ok (k : ℝ) (gs : List Game) : ∀ (acc : List Standing) (m : StatsMap),
    (∀ g ∈ gs, (m g.home).isSome = true ∧ (m g.away).isSome = true) →
    ∃ l m', processGames k gs acc m = .ok (acc ++ l, m') ∧
      l.map Standing.team =
        ((gs.filter fun g => g.scores.isSome).flatMap fun g => [g.home, g.away]) ∧
      (∀ t, (m' t).isSome = (m t).isSome) ∧
      SnapshotCopies k gs m l := by
  induction gs with
  | nil =>
    intro acc m _
    exact ⟨[], m, by simp [processGames], by simp, fun t => rfl, SnapshotCopies.nil m⟩
  | cons g gs ih =>
    intro acc m hdom
    obtain ⟨hh, ha⟩ := hdom g (List.mem_cons_self g gs)
    rcases update_stats_ok g m k hh ha with
      ⟨hnone, hup⟩ |
      ⟨hsome, sh, sa, m1, hup, hsh, hsa, hshd, hshm, hsad, hsam, hcpa, hcph, hpt⟩
    · obtain ⟨l, m', h1, h2, h3, h4⟩ := ih acc m
        (fun g' hg' => hdom g' (List.mem_cons_of_mem _ hg'))
      refine ⟨l, m', ?_, ?_, h3, SnapshotCopies.unplayed g gs m l hnone h4⟩
      · simp only [processGames, hup]
        exact h1
      · rw [h2]
        have : (g :: gs).filter (fun g => g.scores.isSome) =
            gs.filter (fun g => g.scores.isSome) := by
          simp [List.filter_cons, hnone]
        rw [this]
    · have hdom' : ∀ g' ∈ gs, (m1 g'.home).isSome = true ∧ (m1 g'.away).isSome = true := by
        intro g' hg'
        obtain ⟨h1, h2⟩ := hdom g' (List.mem_cons_of_mem _ hg')
        rw [hpt, hpt]
        exact ⟨h1, h2⟩
      obtain ⟨l, m', h1, h2, h3, h4⟩ := ih (acc ++ [sh, sa]) m1 hdom'
      refine ⟨[sh, sa] ++ l, m', ?_, ?_, fun t => (h3 t).trans (hpt t),
        SnapshotCopies.played g gs m sh sa m1 l hup hsh hsa hshd hshm hsad hsam
          hcpa hcph h4⟩
      · simp only [processGames, hup]
        rw [h1, List.append_assoc]
      · have : (g :: gs).filter (fun g => g.scores.isSome) =
            g :: gs.filter (fun g => g.scores.isSome) := by
          simp [List.filter_cons, hsome]
        rw [this]
        simp [hsh, hsa, h2]

/-- The map-only replay loop of `Season::odds` computes the same final
map as the standings loop, whatever snapshot accumulator the latter
starts from. -/
theorem replayStats_eq_processGames (k : ℝ) (gs : List Game) :
    ∀ (m : StatsMap) (acc : List Standing),
    replayStats k gs m = (processGames k gs acc m).map Prod.snd := by
  induction gs with
  | nil => intro m acc; rfl
  | cons g gs ih =>
    intro m acc
    rcases hup : g.update_stats m k with e | r
    · simp only [replayStats, processGames, hup, Except.map]
    · rcases r with _ | p
      · simp only [replayStats, processGames, hup]
        exact ih m acc
      · simp only [replayStats, processGames, hup]
        exact ih p.2 (acc ++ [p.1.1, p.1.2])

theorem mem_teams_of_mem_games (s : Season) (g : Game) (hg : g ∈ s.games) :
    g.home ∈ s.teams ∧ g.away ∈ s.teams := by
  constructor <;>
    · unfold Season.teams
      rw [List.mem_flatMap]
      exact ⟨g, hg, by simp⟩

theorem stats_isSome_iff (s : Season) (r : Int) (t : String) :
    ((s.stats r) t).isSome = true ↔ t ∈ s.teams := by
  unfold Season.stats
  by_cases h : t ∈ s.teams <;> simp [h]

theorem stats_dom (s : Season) (r : Int) :
    ∀ g ∈ s.games, ((s.stats r) g.home).isSome = true ∧
      ((s.stats r) g.away).isSome = true := by
  intro g hg
  obtain ⟨h1, h2⟩ := mem_teams_of_mem_games s g hg
  exact ⟨(stats_isSome_iff s r _).mpr h1, (stats_isSome_iff s r _).mpr h2⟩

/-- `Odds::new` succeeds on every game whose teams are registered, and
copies the two team names. -/
theorem mapM_oddsNew_ok (m : StatsMap) (L : List Game)
    (hdom : ∀ g ∈ L, (m g.home).isSome = true ∧ (m g.away).isSome = true) :
    ∃ o, (L.mapM fun g => Odds.new g m) = .ok o ∧
      o.map Odds.home = L.map Game.home ∧
      o.map Odds.away = L.map Game.away ∧
      o.length = L.length := by
  induction L with
  | nil => exact ⟨[], rfl, rfl, rfl, rfl⟩
  | cons g L ih =>
    obtain ⟨hh, ha⟩ := hdom g (List.mem_cons_self g L)
    obtain ⟨hst, hh'⟩ := Option.isSome_iff_exists.mp hh
    obtain ⟨ast, ha'⟩ := Option.isSome_iff_exists.mp ha
    obtain ⟨o, ho, h1, h2, h3⟩ := ih (fun g' hg' => hdom g' (List.mem_cons_of_mem _ hg'))
    have hnew : Odds.new g m = .ok ⟨g.home,
        (expected_score (hst.elo_rating : ℝ) (ast.elo_rating : ℝ)).1, g.away,
        (expected_score (hst.elo_rating : ℝ) (ast.elo_rating : ℝ)).2⟩ := by
      unfold Odds.new
      simp only [hh', ha']
    refine ⟨⟨g.home, (expected_score (hst.elo_rating : ℝ) (ast.elo_rating : ℝ)).1,
      g.away, (expected_score (hst.elo_rating : ℝ) (ast.elo_rating : ℝ)).2⟩ :: o,
      ?_, ?_, ?_, ?_⟩
    · rw [List.mapM_cons, hnew, ho]
      rfl
    · simp [h1]
    · simp [h2]
    · simp [h3]

theorem flatMap_pair_length {α β : Type} (f h : α → β) (l : List α) :
    (l.flatMap fun a => [f a, h a]).length = 2 * l.length := by
  induction l with
  | nil => rfl
  | cons a l ih =>
    rw [List.flatMap_cons, List.length_append, ih]
    simp only [List.length_cons, List.length_nil]
    omega

/-! ### Claim theorems -/

/-- C2: the standings replay succeeds and emits exactly two Standing
records per played fixture — home side first, then away side, fixtures in
season order — each copying that team's accumulator state immediately
after processing that fixture and tagged with the fixture's date and
round (`SnapshotCopies`, the home side's copy under distinctness of the
two team names), while an unplayed fixture emits no Standing and leaves
the accumulators untouched; hence there are exactly twice as many
Standings as played fixtures, and at most as many played fixtures as raw
fixtures. -/
theorem standings_two_per_played_fixture (s : Season) (initial : Int) (k : ℝ) :
    ∃ l, s.standings initial k = .ok l ∧
      l.map Standing.team =
        ((s.games.filter fun g => g.scores.isSome).flatMap fun g => [g.home, g.away]) ∧
      l.length = 2 * (s.games.filter fun g => g.scores.isSome).length ∧
      (s.games.filter fun g => g.scores.isSome).length ≤ s.games.length ∧
      (∀ (g : Game) (m : StatsMap), g.scores = none → g.update_stats m k = .ok none) ∧
      SnapshotCopies k s.games (s.stats initial) l := by
  obtain ⟨l, m', h1, h2, h3, h4⟩ :=
    processGames_ok k s.games [] (s.stats initial) (stats_dom s initial)
  refine ⟨l, ?_, h2, ?_, List.length_filter_le _ _,
    fun g m hg => update_stats_unplayed g m k hg, h4⟩
  · unfold Season.standings
    rw [h1]
    rfl
  · have hlen := congrArg List.length h2
    rw [List.length_map] at hlen
    rw [hlen, flatMap_pair_length]

/-- C2 witness: on a season of one played and one unplayed fixture the
replay produces exactly the home-then-away pair of the played one. -/
theorem standings_two_per_played_fixture_witness :
    ∃ l, Season.standings wSeason2 1500 32 = .ok l ∧ l.length = 2 ∧
      l.map Standing.team = ["A", "B"] := by
  obtain ⟨l, h1, h2, h3, _, _, _⟩ := standings_two_per_played_fixture wSeason2 1500 32
  refine ⟨l, h1, ?_, ?_⟩
  · rw [h3]
    decide
  · rw [h2]
    decide

/-- C7: the accumulator map is created with exactly the team names
appearing as home or away in some fixture, and the standings and odds
computations always succeed — the missing-team branch is unreachable. -/
theorem missing_team_unreachable (s : Season) (initial : Int) (k : ℝ) (mw : Nat) :
    (∀ t : String, ((s.stats initial) t).isSome = true ↔
      ∃ g ∈ s.games, t = g.home ∨ t = g.away) ∧
    (∃ l, s.standings initial k = .ok l) ∧
    (∃ o, s.odds initial k mw = .ok o) := by
  refine ⟨?_, ?_, ?_⟩
  · intro t
    rw [stats_isSome_iff]
    unfold Season.teams
    simp [List.mem_flatMap]
  · obtain ⟨l, m', h1, _, _, _⟩ :=
      processGames_ok k s.games [] (s.stats initial) (stats_dom s initial)
    refine ⟨l, ?_⟩
    unfold Season.standings
    rw [h1]
    rfl
  · have hdomf : ∀ g ∈ (s.games.filter fun g => g.matchweek < mw),
        ((s.stats initial) g.home).isSome = true ∧
        ((s.stats initial) g.away).isSome = true :=
      fun g hg => stats_dom s initial g (List.mem_of_mem_filter hg)
    obtain ⟨l, m', h1, _, h3, _⟩ :=
      processGames_ok k (s.games.filter fun g => g.matchweek < mw) []
        (s.stats initial) hdomf
    have hrepl : replayStats k (s.games.filter fun g => g.matchweek < mw)
        (s.stats initial) = .ok m' := by
      rw [replayStats_eq_processGames k _ _ [], h1]
      rfl
    have hdomt : ∀ g ∈ (s.games.filter fun g => g.matchweek == mw),
        (m' g.home).isSome = true ∧ (m' g.away).isSome = true := by
      intro g hg
      obtain ⟨hh, ha⟩ := stats_dom s initial g (List.mem_of_mem_filter hg)
      rw [h3, h3]
      exact ⟨hh, ha⟩
    obtain ⟨o, ho, _, _, _⟩ :=
      mapM_oddsNew_ok m' (s.games.filter fun g => g.matchweek == mw) hdomt
    refine ⟨o, ?_⟩
    unfold Season.odds
    rw [hrepl]
    exact ho

/-- C7 witness: on a concrete one-fixture season both computations
succeed. -/
theorem missing_team_unreachable_witness :
    (∃ l, Season.standings wSeason 1500 32 = .ok l) ∧
    (∃ o, Season.odds wSeason 1500 32 1 = .ok o) := by
  obtain ⟨_, h1, h2⟩ := missing_team_unreachable wSeason 1500 32 1
  exact ⟨h1, h2⟩

/-- C8: the replay is deterministic — the Standing and Odds outputs are
functions of the fixture sequence and the numeric parameters alone, so
two seasons with the same fixtures give identical outputs. -/
theorem replay_deterministic (s1 s2 : Season) (initial : Int) (k : ℝ) (mw : Nat)
    (h : s1.games = s2.games) :
    s1.standings initial k = s2.standings initial k ∧
    s1.odds initial k mw = s2.odds initial k mw := by
  have hs : s1 = s2 := by
    cases s1
    cases s2
    cases h
    rfl
  rw [hs]
  exact ⟨rfl, rfl⟩

/-- C8 witness: determinism at a concrete season and parameters. -/
theorem replay_deterministic_witness :
    Season.standings wSeason 1500 32 = Season.standings wSeason 1500 32 ∧
    Season.odds wSeason 1500 32 1 = Season.odds wSeason 1500 32 1 :=
  replay_deterministic wSeason wSeason 1500 32 1 rfl

/-- C3: the odds computation equals the spec's composition — replay the
rating engine over the fixtures of strictly earlier rounds, freeze the
final ratings, and emit one Odds per fixture of the target round, in
season order, with no further mutation; it succeeds, and its output lists
exactly the target-round fixtures' team pairs in order. -/
theorem odds_replays_earlier_rounds (s : Season) (initial : Int) (k : ℝ) (mw : Nat) :
    s.odds initial k mw = oddsViaRatingEngine s initial k mw ∧
    ∃ o, s.odds initial k mw = .ok o ∧
      o.map Odds.home = (s.games.filter fun g => g.matchweek == mw).map Game.home ∧
      o.map Odds.away = (s.games.filter fun g => g.matchweek == mw).map Game.away ∧
      o.length = (s.games.filter fun g => g.matchweek == mw).length := by
  constructor
  · unfold Season.odds oddsViaRatingEngine
    rw [replayStats_eq_processGames k _ _ []]
    rcases processGames k (s.games.filter fun g => g.matchweek < mw) []
        (s.stats initial) with e | r
    · rfl
    · rfl
  · have hdomf : ∀ g ∈ (s.games.filter fun g => g.matchweek < mw),
        ((s.stats initial) g.home).isSome = true ∧
        ((s.stats initial) g.away).isSome = true :=
      fun g hg => stats_dom s initial g (List.mem_of_mem_filter hg)
    obtain ⟨l, m', h1, _, h3, _⟩ :=
      processGames_ok k (s.games.filter fun g => g.matchweek < mw) []
        (s.stats initial) hdomf
    have hrepl : replayStats k (s.games.filter fun g => g.matchweek < mw)
        (s.stats initial) = .ok m' := by
      rw [replayStats_eq_processGames k _ _ [], h1]
      rfl
    have hdomt : ∀ g ∈ (s.games.filter fun g => g.matchweek == mw),
        (m' g.home).isSome = true ∧ (m' g.away).isSome = true := by
      intro g hg
      obtain ⟨hh, ha⟩ := stats_dom s initial g (List.mem_of_mem_filter hg)
      rw [h3, h3]
      exact ⟨hh, ha⟩
    obtain ⟨o, ho, ho1, ho2, ho3⟩ :=
      mapM_oddsNew_ok m' (s.games.filter fun g => g.matchweek == mw) hdomt
    refine ⟨o, ?_, ho1, ho2, ho3⟩
    unfold Season.odds
    rw [hrepl]
    exact ho

/-- C3 witness: on the two-fixture season, odds for matchweek 2 cover
exactly the one matchweek-2 fixture, and the spec composition agrees. -/
theorem odds_replays_earlier_rounds_witness :
    Season.odds wSeason2 1500 32 2 = oddsViaRatingEngine wSeason2 1500 32 2 ∧
    ∃ o, Season.odds wSeason2 1500 32 2 = .ok o ∧ o.length = 1 ∧
      o.map Odds.home = ["A"] ∧ o.map Odds.away = ["B"] := by
  obtain ⟨heq, o, h1, h2, h3, h4⟩ := odds_replays_earlier_rounds wSeason2 1500 32 2
  refine ⟨heq, o, h1, ?_, ?_, ?_⟩
  · rw [h4]
    decide
  · rw [h2]
    decide
  · rw [h3]
    decide

theorem roundAfz_ofInt (x : ℝ) (n : Int) (h : x = (n : ℝ)) : roundAfz x = n :=
  h ▸ roundAfz_intCast n

theorem roundAfz_neg_half : roundAfz (-(1 / 2) : ℝ) = -1 := by
  unfold roundAfz
  rw [if_neg (by norm_num)]
  have h : (-(-(1 / 2) : ℝ) + 1 / 2) = ((1 : ℝ) / 2 + (0 : ℤ)) + 1 / 2 := by
    push_cast
    ring
  rw [h]
  rw [show ((1 : ℝ) / 2 + (0 : ℤ)) + 1 / 2 = ((1 : ℤ) : ℝ) by push_cast; ring]
  rw [Int.floor_intCast]

/-- C1 (amended): on a played fixture between distinct registered teams,
both expected scores are computed from the same pre-game rating pair
(neither side sees the other's post-update rating), the pair sums to 1,
and each side's new rating is its own pre-game rating plus the rounded
delta `round(K * (actual - expected))` — the delta is rounded (nearest,
ties away from zero) and then added to the integer old rating. -/
theorem rating_update_simultaneous (g : Game) (m : StatsMap) (k : ℝ) (hsc asc : Nat)
    (hst ast : Stats) (hs : g.scores = some (hsc, asc)) (hne : g.home ≠ g.away)
    (hh : m g.home = some hst) (ha : m g.away = some ast) :
    ∃ sh sa m', g.update_stats m k = .ok (some ((sh, sa), m')) ∧
      sh.elo_rating = hst.elo_rating + roundAfz (k * (actualScore hsc asc -
        (expected_score (hst.elo_rating : ℝ) (ast.elo_rating : ℝ)).1)) ∧
      sa.elo_rating = ast.elo_rating + roundAfz (k * (actualScore asc hsc -
        (expected_score (hst.elo_rating : ℝ) (ast.elo_rating : ℝ)).2)) ∧
      (expected_score (hst.elo_rating : ℝ) (ast.elo_rating : ℝ)).1 +
        (expected_score (hst.elo_rating : ℝ) (ast.elo_rating : ℝ)).2 = 1 := by
  obtain ⟨sh, sa, m', h1, _, _, h4, h5, _, _⟩ :=
    update_stats_played g m k hsc asc hst ast hs hne hh ha
  exact ⟨sh, sa, m', h1, h4, h5, expected_score_sum _ _⟩

/-- C1 witness: between two 1500-rated teams with a 1-0 result and K=32,
the expected scores are 0.5 each and the new ratings are 1516 and
1484. -/
theorem rating_update_simultaneous_witness :
    ∃ sh sa m', Game.update_stats wGame (wSeason.stats 1500) 32 = .ok (some ((sh, sa), m')) ∧
      sh.elo_rating = 1516 ∧ sa.elo_rating = 1484 := by
  have hh : (wSeason.stats 1500) wGame.home = some (Stats.new 1500) := by decide
  have ha : (wSeason.stats 1500) wGame.away = some (Stats.new 1500) := by decide
  obtain ⟨sh, sa, m', h1, h2, h3, _⟩ :=
    rating_update_simultaneous wGame (wSeason.stats 1500) 32 1 0
      (Stats.new 1500) (Stats.new 1500) rfl (by decide) hh ha
  refine ⟨sh, sa, m', h1, ?_, ?_⟩
  · rw [h2, expected_score_self]
    rw [show actualScore 1 0 = 1 from by unfold actualScore; norm_num]
    rw [roundAfz_ofInt _ 16 (by norm_num)]
    decide
  · rw [h3, expected_score_self]
    rw [show actualScore 0 1 = 0 from by unfold actualScore; norm_num]
    rw [roundAfz_ofInt _ (-16) (by norm_num)]
    decide

/-- C1 counterexample: the claim's general formula
`round(oldRating + K*(actual - expected))` disagrees with the code.  With
K=1, both ratings 1500 and a home loss, the code computes
`1500 + round(1*(0 - 0.5)) = 1500 + (-1) = 1499`, while the claim's
formula gives `round(1499.5) = 1500` (ties away from zero). -/
theorem rating_round_formula_cex :
    (∃ sh sa m', Game.update_stats wGameLoss (wSeason.stats 1500) 1 =
        .ok (some ((sh, sa), m')) ∧ sh.elo_rating = 1499) ∧
    roundAfz ((1500 : ℝ) + 1 * (actualScore 0 1 -
      (expected_score ((1500 : ℤ) : ℝ) ((1500 : ℤ) : ℝ)).1)) = 1500 ∧
    (1499 : ℤ) ≠ 1500 := by
  have ha0 : actualScore 0 1 = 0 := by
    unfold actualScore
    norm_num
  refine ⟨?_, ?_, by decide⟩
  · have hh : (wSeason.stats 1500) wGameLoss.home = some (Stats.new 1500) := by decide
    have ha : (wSeason.stats 1500) wGameLoss.away = some (Stats.new 1500) := by decide
    obtain ⟨sh, sa, m', h1, _, _, h4, _, _, _⟩ :=
      update_stats_played wGameLoss (wSeason.stats 1500) 1 0 1
        (Stats.new 1500) (Stats.new 1500) rfl (by decide) hh ha
    refine ⟨sh, sa, m', h1, ?_⟩
    rw [h4, expected_score_self, ha0]
    rw [show (1 : ℝ) * (0 - ((1 : ℝ) / 2, (1 : ℝ) / 2).1) = -(1 / 2) by norm_num]
    rw [roundAfz_neg_half]
    decide
  · rw [ha0, expected_score_self]
    unfold roundAfz
    rw [if_pos (by norm_num)]
    rw [show (1500 : ℝ) + 1 * (0 - ((1 : ℝ) / 2, (1 : ℝ) / 2).1) + 1 / 2 =
      ((1500 : ℤ) : ℝ) by norm_num]
    rw [Int.floor_intCast]

/-- A successfully resolved date marker gets the current base year for
months July..December and base year + 1 for months January..June. -/
theorem resolveDate_year (Y : Int) (m d : List Char) (dt : Date)
    (h : resolveDate Y m d = .ok dt) :
    (7 ≤ dt.month → dt.year = Y) ∧ (dt.month < 7 → dt.year = Y + 1) := by
  unfold resolveDate at h
  split at h
  · exact Except.noConfusion h
  · rename_i mo hmo
    split at h
    · exact Except.noConfusion h
    · split at h
      · exact Except.noConfusion h
      · split at h
        · rename_i hlt
          split at h
          · exact Except.noConfusion h
          · cases h
            constructor
            · intro h7
              have h7' : 7 ≤ mo := h7
              omega
            · intro _
              rfl
        · rename_i hlt
          cases h
          constructor
          · intro _
            rfl
          · intro h7
            have h7' : mo < 7 := h7
            omega

/-- C4 (amended): a date-marker line parsed with current base year Y
resolves months July through December to calendar year Y and months
January through June to Y + 1; in particular "Aug" resolves to Y and
"Jan" to Y + 1 (the witness), but "Jul" resolves to Y, not Y + 1 (the
counterexample). -/
theorem date_marker_year_resolution (st : PState) (line : String) (m d : List Char)
    (st' : PState) (hcl : classifyLine (trimChars line.toList) = .date m d)
    (hp : parseStep st line = .ok st') :
    (7 ≤ st'.date.month → st'.date.year = st.year) ∧
    (st'.date.month < 7 → st'.date.year = st.year + 1) := by
  unfold parseStep at hp
  simp only [hcl] at hp
  rcases hr : resolveDate st.year m d with e | dt
  · rw [hr] at hp
    exact Except.noConfusion hp
  · rw [hr] at hp
    cases hp
    exact resolveDate_year st.year m d dt hr

/-- C4 witness: under base year 2018, "Aug" stays in 2018 and "Jan" moves
to 2019. -/
theorem date_marker_year_resolution_witness :
    (∃ st', parseStep ⟨2018, 0, today0, []⟩ "[Sat Aug/11]" = .ok st' ∧
      st'.date.year = 2018) ∧
    (∃ st', parseStep ⟨2018, 0, today0, []⟩ "[Tue Jan/1]" = .ok st' ∧
      st'.date.year = 2019) := by
  constructor
  · have hp : parseStep ⟨2018, 0, today0, []⟩ "[Sat Aug/11]" =
        .ok ⟨2018, 0, ⟨2018, 8, 11⟩, []⟩ := by decide
    exact ⟨_, hp,
      (date_marker_year_resolution _ _ ['A', 'u', 'g'] ['1', '1'] _ (by decide) hp).1
        (by decide)⟩
  · have hp : parseStep ⟨2018, 0, today0, []⟩ "[Tue Jan/1]" =
        .ok ⟨2018, 0, ⟨2019, 1, 1⟩, []⟩ := by decide
    exact ⟨_, hp,
      (date_marker_year_resolution _ _ ['J', 'a', 'n'] ['1'] _ (by decide) hp).2
        (by decide)⟩

/-- C4 counterexample: a July date marker under base year 2018 resolves
to 2018, not to 2018 + 1 as the claim's "January through July" states. -/
theorem july_resolves_to_base_year_cex :
    parseStep ⟨2018, 0, today0, []⟩ "[Mon Jul/15]" =
      .ok ⟨2018, 0, ⟨2018, 7, 15⟩, []⟩ ∧
    (⟨2018, 7, 15⟩ : Date).year ≠ 2018 + 1 := by
  exact ⟨by decide, by decide⟩

/-- C5 (amended): a fixture line with both goal fields present (and in
u16 range) yields a played fixture with that score; a fixture line with
one or both goal fields absent yields an unplayed fixture — in
particular a line with exactly one goal field present parses
successfully as unplayed instead of failing. -/
theorem fixture_score_fields (st : PState) (line : String) (caps : GameCaps)
    (hcl : classifyLine (trimChars line.toList) = .game caps) :
    ((caps.homeScore = none ∨ caps.awayScore = none) →
      parseStep st line = .ok { st with games := st.games ++
        [⟨st.date, st.matchweek, String.mk caps.home, String.mk caps.away, none⟩] }) ∧
    (∀ hd ad, caps.homeScore = some hd → caps.awayScore = some ad →
      natOfDigits hd ≤ 65535 → natOfDigits ad ≤ 65535 →
      parseStep st line = .ok { st with games := st.games ++
        [⟨st.date, st.matchweek, String.mk caps.home, String.mk caps.away,
          some (natOfDigits hd, natOfDigits ad)⟩] }) := by
  constructor
  · intro hone
    unfold parseStep
    simp only [hcl]
    rcases h1 : caps.homeScore with _ | hd
    · rfl
    · rcases h2 : caps.awayScore with _ | ad
      · rfl
      · rcases hone with h | h
        · rw [h1] at h
          exact Option.noConfusion h
        · rw [h2] at h
          exact Option.noConfusion h
  · intro hd ad h1 h2 hb1 hb2
    unfold parseStep
    simp only [hcl, h1, h2]
    unfold u16OfDigits
    rw [if_neg (by omega), if_neg (by omega)]

/-- C5 witness: "Team A 2- Team B" (only the home goal field) parses as
an unplayed fixture, and "A 1-0 B" (both fields) parses as played
1-0. -/
theorem fixture_score_fields_witness :
    parseStep (initPState today0) "Team A 2- Team B" =
      .ok ⟨0, 0, today0, [⟨today0, 0, "Team A", "Team B", none⟩]⟩ ∧
    parseStep (initPState today0) "A 1-0 B" =
      .ok ⟨0, 0, today0, [⟨today0, 0, "A", "B", some (1, 0)⟩]⟩ := by
  constructor
  · exact (fixture_score_fields (initPState today0) "Team A 2- Team B"
      ⟨("Team A").toList, some ['2'], none, ("Team B").toList⟩ (by decide)).1
      (Or.inr rfl)
  · exact (fixture_score_fields (initPState today0) "A 1-0 B"
      ⟨['A'], some ['1'], some ['0'], ['B']⟩ (by decide)).2
      ['1'] ['0'] rfl rfl (by decide) (by decide)

/-- C5 counterexample: the claim says a fixture line with exactly one
goal field fails with a malformed-line error and no Season is returned;
the code instead returns a Season containing an unplayed fixture. -/
theorem fixture_one_score_cex :
    parseLines today0 ["Team A 2- Team B"] =
      .ok ⟨[⟨today0, 0, "Team A", "Team B", none⟩]⟩ := by
  decide

/-- A line folding chain containing an unmatched line can never end in
success. -/
theorem foldl_parseStep_err (lines : List String) : ∀ (st : PState),
    (∃ l ∈ lines, classifyLine (trimChars l.toList) = .invalid (trimChars l.toList)) →
    ∀ r : PState, List.foldlM parseStep st lines ≠ .ok r := by
  induction lines with
  | nil =>
    intro st hex r
    obtain ⟨l, hl, _⟩ := hex
    exact absurd hl (List.not_mem_nil l)
  | cons l ls ih =>
    intro st hex r h
    rw [List.foldlM_cons] at h
    rcases hs : parseStep st l with e | s
    · rw [hs] at h
      exact Except.noConfusion h
    · rw [hs] at h
      obtain ⟨l', hl', hinv⟩ := hex
      rcases List.mem_cons.mp hl' with rfl | hmem
      · unfold parseStep at hs
        simp only [hinv] at hs
        exact Except.noConfusion hs
      · exact ih s ⟨l', hmem, hinv⟩ r h

/-- C6 (amended): when the lines before the first unmatched line all
process successfully, parsing fails exactly there with an
invalid-season-line error carrying that line's (trimmed) literal text;
and whenever any unmatched line is present, no Season at all is
returned (though an earlier line that matches a shape but has an
out-of-range or unparseable field fails first with its own error). -/
theorem unmatched_line_rejected :
    (∀ (today : Date) (pre rest : List String) (bad : String) (st : PState),
      List.foldlM parseStep (initPState today) pre = .ok st →
      classifyLine (trimChars bad.toList) = .invalid (trimChars bad.toList) →
      parseLines today (pre ++ bad :: rest) =
        .error (.invalidSeasonLine (String.mk (trimChars bad.toList)))) ∧
    (∀ (today : Date) (lines : List String),
      (∃ l ∈ lines, classifyLine (trimChars l.toList) = .invalid (trimChars l.toList)) →
      ∀ season : Season, parseLines today lines ≠ .ok season) := by
  constructor
  · intro today pre rest bad st hpre hbad
    unfold parseLines
    rw [List.foldlM_append, hpre]
    show (List.foldlM parseStep st (bad :: rest)).map _ = _
    rw [List.foldlM_cons]
    have hstep : parseStep st bad = .error (.invalidSeasonLine
        (String.mk (trimChars bad.toList))) := by
      unfold parseStep
      simp only [hbad]
    rw [hstep]
    rfl
  · intro today lines hex season h
    unfold parseLines at h
    rcases hf : List.foldlM parseStep (initPState today) lines with e | st
    · rw [hf] at h
      exact Except.noConfusion h
    · exact foldl_parseStep_err lines (initPState today) hex st hf

/-- C6 witness: the lone line "???" makes parsing fail with an error
naming exactly that text, and no Season is returned. -/
theorem unmatched_line_rejected_witness :
    parseLines today0 ["???"] = .error (.invalidSeasonLine "???") ∧
    parseLines today0 ["???"] ≠ .ok ⟨[]⟩ := by
  constructor
  · exact unmatched_line_rejected.1 today0 [] [] "???" (initPState today0) rfl (by decide)
  · exact unmatched_line_rejected.2 today0 ["???"] ⟨"???", by decide, by decide⟩ ⟨[]⟩

/-- C6 counterexample: an input containing the unmatched line "???" can
fail earlier with a different error — "Matchday 99999" matches the
round-marker shape but overflows u16, so parsing fails at line one with
an integer-parse error, not at "???" with its text. -/
theorem unmatched_line_rejected_cex :
    parseLines today0 ["Matchday 99999", "???"] = .error .intParseError ∧
    classifyLine (trimChars ("???").toList) = .invalid (trimChars ("???").toList) ∧
    Err.intParseError ≠ Err.invalidSeasonLine "???" := by
  refine ⟨by decide, by decide, by decide⟩

/-- C9 (amended): a Season carries only its ordered fixture sequence —
two Seasons with the same fixtures are equal, so no display name is
stored — and a header line sets only the base year of the parse
context; the captured season name is discarded. -/
theorem season_has_no_name (st : PState) (line : String) (y : Int)
    (hcl : classifyLine (trimChars line.toList) = .header y) :
    parseStep st line = .ok { st with year := y } ∧
    ∀ s1 s2 : Season, s1.games = s2.games → s1 = s2 := by
  constructor
  · unfold parseStep
    simp only [hcl]
  · intro s1 s2 h
    cases s1
    cases s2
    cases h
    rfl

/-- C9 witness: a concrete header line sets the year 2018 and nothing
else. -/
theorem season_has_no_name_witness :
    parseStep (initPState today0) "# Foo 2018/19" = .ok ⟨2018, 0, today0, []⟩ := by
  exact (season_has_no_name (initPState today0) "# Foo 2018/19" 2018 (by decide)).1

/-- C9 counterexample: two header lines differing only in season name
produce identical Seasons, so the name is not set on (nor carried by)
the resulting Season, contrary to the claim. -/
theorem season_name_discarded_cex :
    parseLines today0 ["# Foo 2018/19", "A 1-0 B"] =
      parseLines today0 ["# Bar 2018/19", "A 1-0 B"] ∧
    ("Foo" : String) ≠ "Bar" := by
  refine ⟨by decide, by decide⟩

/-- A successful parse step leaves the matchday untouched unless the
line is a round marker, leaves the year untouched unless the line is a
header, and appends only games carrying the current matchday. -/
theorem parseStep_ok_inv (st : PState) (line : String) (s : PState)
    (h : parseStep st line = .ok s) :
    (s.matchweek = st.matchweek ∨ isMatchdayLine line = true) ∧
    (s.year = st.year ∨ isHeaderLine line = true) ∧
    (∀ g ∈ s.games, g ∈ st.games ∨ g.matchweek = st.matchweek) := by
  unfold parseStep at h
  split at h
  · cases h
    exact ⟨Or.inl rfl, Or.inl rfl, fun g hg => Or.inl hg⟩
  · rename_i y hcl
    cases h
    exact ⟨Or.inl rfl, Or.inr (by unfold isHeaderLine; rw [hcl]),
      fun g hg => Or.inl hg⟩
  · rename_i ds hcl
    split at h
    · exact Except.noConfusion h
    · cases h
      exact ⟨Or.inr (by unfold isMatchdayLine; rw [hcl]), Or.inl rfl,
        fun g hg => Or.inl hg⟩
  · rename_i m d hcl
    split at h
    · exact Except.noConfusion h
    · cases h
      exact ⟨Or.inl rfl, Or.inl rfl, fun g hg => Or.inl hg⟩
  · rename_i caps hcl
    split at h
    · split at h
      · exact Except.noConfusion h
      · split at h
        · exact Except.noConfusion h
        · cases h
          refine ⟨Or.inl rfl, Or.inl rfl, fun g hg => ?_⟩
          rcases List.mem_append.mp hg with hg | hg
          · exact Or.inl hg
          · rw [List.mem_singleton.mp hg]
            exact Or.inr rfl
    · cases h
      refine ⟨Or.inl rfl, Or.inl rfl, fun g hg => ?_⟩
      rcases List.mem_append.mp hg with hg | hg
      · exact Or.inl hg
      · rw [List.mem_singleton.mp hg]
        exact Or.inr rfl
  · exact Except.noConfusion h

/-- The fold of parse steps keeps the matchday, the year, and the games'
matchday tags, on stretches of lines without the corresponding
markers. -/
theorem foldl_parseStep_inv (lines : List String) : ∀ (st st' : PState),
    List.foldlM parseStep st lines = .ok st' →
    ((∀ l ∈ lines, isMatchdayLine l = false) → st'.matchweek = st.matchweek) ∧
    ((∀ l ∈ lines, isHeaderLine l = false) → st'.year = st.year) ∧
    ((∀ l ∈ lines, isMatchdayLine l = false) →
      ∀ g ∈ st'.games, g ∈ st.games ∨ g.matchweek = st.matchweek) := by
  induction lines with
  | nil =>
    intro st st' h
    cases h
    exact ⟨fun _ => rfl, fun _ => rfl, fun _ g hg => Or.inl hg⟩
  | cons l ls ih =>
    intro st st' h
    rw [List.foldlM_cons] at h
    rcases hs : parseStep st l with e | s
    · rw [hs] at h
      exact Except.noConfusion h
    · rw [hs] at h
      obtain ⟨ihm, ihy, ihg⟩ := ih s st' h
      obtain ⟨sm, sy, sg⟩ := parseStep_ok_inv st l s hs
      refine ⟨fun hno => ?_, fun hno => ?_, fun hno g hg => ?_⟩
      · have hl := hno l (List.mem_cons_self l ls)
        have hls := fun l' hl' => hno l' (List.mem_cons_of_mem _ hl')
        rcases sm with sm | sm
        · rw [ihm hls, sm]
        · rw [sm] at hl
          exact Bool.noConfusion hl
      · have hl := hno l (List.mem_cons_self l ls)
        have hls := fun l' hl' => hno l' (List.mem_cons_of_mem _ hl')
        rcases sy with sy | sy
        · rw [ihy hls, sy]
        · rw [sy] at hl
          exact Bool.noConfusion hl
      · have hl := hno l (List.mem_cons_self l ls)
        have hls := fun l' hl' => hno l' (List.mem_cons_of_mem _ hl')
        have hmw : s.matchweek = st.matchweek := by
          rcases sm with sm | sm
          · exact sm
          · rw [sm] at hl
            exact Bool.noConfusion hl
        rcases ihg hls g hg with hg' | hg'
        · rcases sg g hg' with h1 | h1
          · exact Or.inl h1
          · exact Or.inr h1
        · exact Or.inr (hg'.trans hmw)

/-- C10: before any round marker the current matchday is 0 and every
fixture parsed is tagged with round 0; before any header the base year
is 0, so an August date marker resolves to year 0 and a January one to
year 1; and a non-blank (trimmed) line is skipped without producing any
event exactly when all of its characters are '#'. -/
theorem initial_context_defaults :
    (∀ (today : Date) (l1 : List String) (st : PState),
      (∀ l ∈ l1, isMatchdayLine l = false) →
      List.foldlM parseStep (initPState today) l1 = .ok st →
      st.matchweek = 0 ∧ ∀ g ∈ st.games, g.matchweek = 0) ∧
    (∀ (today : Date) (l1 : List String) (st : PState),
      (∀ l ∈ l1, isHeaderLine l = false) →
      List.foldlM parseStep (initPState today) l1 = .ok st →
      st.year = 0) ∧
    (∀ today : Date,
      parseStep (initPState today) "[Mon Aug/15]" =
        .ok { initPState today with date := ⟨0, 8, 15⟩ } ∧
      parseStep (initPState today) "[Mon Jan/15]" =
        .ok { initPState today with date := ⟨1, 1, 15⟩ }) ∧
    (∀ cs : List Char, cs ≠ [] →
      (classifyLine cs = .ignored ↔ cs.all (fun c => c == '#') = true)) := by
  refine ⟨?_, ?_, ?_, ?_⟩
  · intro today l1 st hno h
    obtain ⟨hm, _, hg⟩ := foldl_parseStep_inv l1 (initPState today) st h
    refine ⟨hm hno, fun g hgm => ?_⟩
    rcases hg hno g hgm with h1 | h1
    · exact absurd h1 (List.not_mem_nil g)
    · exact h1
  · intro today l1 st hno h
    obtain ⟨_, hy, _⟩ := foldl_parseStep_inv l1 (initPState today) st h
    exact hy hno
  · intro today
    exact ⟨rfl, rfl⟩
  · intro cs hne
    have hempty : cs.isEmpty = false := by
      cases cs
      · exact absurd rfl hne
      · rfl
    constructor
    · intro h
      by_cases hall : cs.all (fun c => c == '#') = true
      · exact hall
      · exfalso
        unfold classifyLine at h
        rw [if_neg (by simp [hempty, hall])] at h
        rcases h1 : headerMatch cs with _ | y
        · rw [h1] at h
          rcases h2 : matchdayMatch cs with _ | ds
          · rw [h2] at h
            rcases h3 : dateMatch cs with _ | md
            · rw [h3] at h
              rcases h4 : gameMatch cs with _ | caps
              · rw [h4] at h
                exact LineClass.noConfusion h
              · rw [h4] at h
                exact LineClass.noConfusion h
            · rw [h3] at h
              exact LineClass.noConfusion h
          · rw [h2] at h
            exact LineClass.noConfusion h
        · rw [h1] at h
          exact LineClass.noConfusion h
    · intro hall
      unfold classifyLine
      rw [if_pos (by simp [hall])]

/-- C10 witness: a fixture line before any marker gets matchday 0, and
the August date marker before any header resolves to year 0. -/
theorem initial_context_defaults_witness :
    (∃ st, List.foldlM parseStep (initPState today0) ["A 1-0 B"] = .ok st ∧
      st.matchweek = 0 ∧ ∀ g ∈ st.games, g.matchweek = 0) ∧
    parseStep (initPState today0) "[Mon Aug/15]" =
      .ok { initPState today0 with date := ⟨0, 8, 15⟩ } ∧
    (classifyLine ("####").toList = .ignored ↔
      (("####").toList.all fun c => c == '#') = true) := by
  refine ⟨?_, ?_, ?_⟩
  · have hf : List.foldlM parseStep (initPState today0) ["A 1-0 B"] =
        .ok ⟨0, 0, today0, [⟨today0, 0, "A", "B", some (1, 0)⟩]⟩ := by decide
    obtain ⟨h1, h2⟩ := initial_context_defaults.1 today0 ["A 1-0 B"] _ (by decide) hf
    exact ⟨_, hf, h1, h2⟩
  · exact (initial_context_defaults.2.2.1 today0).1
  · exact initial_context_defaults.2.2.2 ("####").toList (by decide)

end Openfootball
